import Mathlib

/-!
Verification of the SPL particle-effect core of the nitroefx repository.

The development shallowly embeds the numeric core of the repository:

* the fixed-point conversion helpers (`fx32`, 12 fractional bits),
* the accurate-mode damped random ranges of `SPLRandom`
  (`src/src/spl/spl_random.h`),
* the mt19937_64-backed draw stream that `SPLRandom` wraps,
* the angle index conversions of `SPLArchive` (`src/src/spl/spl_archive.h`),
* the archive decoding pipeline and the behavior-flag bookkeeping of
  `SPLResource` (`src/src/spl/spl_resource.h`).

Modelling conventions: `f32` values are idealised as exact rationals (every
concrete value used in a proof below is exactly representable in binary32 and
the modelled operations on it are exact there); machine integers are `ℤ`/`ℕ` —
the fixed-point intermediates of the modelled functions stay far inside the
`s32` range for the argument bounds appearing in the theorems, so no
wraparound is modelled.
-/

namespace Nitroefx

/-- Truncation of a rational toward zero, the semantics of a C++
float-to-signed-integer cast. -/
def ratTrunc (x : ℚ) : ℤ := Int.tdiv x.num (x.den : ℤ)

/-- Arithmetic shift right of a signed integer by `k` bits (`x >> k` on `fx32`
values in the sources), which is floor division by `2 ^ k`. -/
def asr (x : ℤ) (k : ℕ) : ℤ := Int.fdiv x (2 ^ k)

/-- Modelled from the spec: the fixed-point conversion macro `FX_F32_TO_FX32`
lives in `types.h`/`fx.h`, which are not among the given sources; §4.1 of the
spec defines the float-to-fixed conversion for the 32-bit, 12-fractional-bit
format as multiply by the scale and truncate to integer. -/
def FX_F32_TO_FX32 (x : ℚ) : ℤ := ratTrunc (x * 4096)

/-- Modelled from the spec: the fixed-to-float conversion macro
`FX_FX32_TO_F32` (§4.1), the integer value divided by the scale
`2 ^ 12 = 4096`. -/
def FX_FX32_TO_F32 (v : ℤ) : ℚ := (v : ℚ) / 4096

theorem ratTrunc_eq_floor {x : ℚ} (h : 0 ≤ x) : ratTrunc x = ⌊x⌋ := by
  rw [ratTrunc, Int.tdiv_eq_ediv (Rat.num_nonneg.mpr h) (Int.natCast_nonneg _),
    Rat.floor_def]

theorem ratTrunc_nonneg {x : ℚ} (h : 0 ≤ x) : 0 ≤ ratTrunc x := by
  rw [ratTrunc_eq_floor h]; exact Int.floor_nonneg.mpr h

theorem ratTrunc_le {x : ℚ} (h : 0 ≤ x) : (ratTrunc x : ℚ) ≤ x := by
  rw [ratTrunc_eq_floor h]; exact Int.floor_le x

theorem ratTrunc_natCast (n : ℕ) : ratTrunc (n : ℚ) = n := by
  rw [ratTrunc_eq_floor (by positivity)]; exact_mod_cast Int.floor_natCast n

theorem asr_eq_floor (x : ℤ) (k : ℕ) : asr x k = ⌊(x : ℚ) / (2 : ℚ) ^ k⌋ := by
  rw [asr, Int.fdiv_eq_ediv _ (by positivity),
    show ((2 : ℚ) ^ k) = ((2 ^ k : ℕ) : ℚ) by push_cast; ring,
    Rat.floor_intCast_div_natCast]
  norm_cast

theorem asr_nonneg {x : ℤ} (h : 0 ≤ x) (k : ℕ) : 0 ≤ asr x k := by
  rw [asr_eq_floor]
  exact Int.floor_nonneg.mpr (by positivity)

theorem asr_le (x : ℤ) (k : ℕ) : (asr x k : ℚ) ≤ (x : ℚ) / 2 ^ k := by
  rw [asr_eq_floor]; exact Int.floor_le _

theorem le_asr {z x : ℤ} {k : ℕ} (h : (z : ℚ) ≤ (x : ℚ) / 2 ^ k) :
    z ≤ asr x k := by
  rw [asr_eq_floor]; exact Int.le_floor.mpr h

theorem asr_le_of_le {x y : ℤ} (k : ℕ) (h : x ≤ y * 2 ^ k) : asr x k ≤ y := by
  rw [asr_eq_floor]
  calc ⌊(x : ℚ) / 2 ^ k⌋ ≤ ⌊(y : ℚ)⌋ := by
        apply Int.floor_le_floor
        rw [div_le_iff₀ (by positivity)]
        exact_mod_cast h
    _ = y := Int.floor_intCast y

namespace SPLRandom

/-- Accurate-mode `SPLRandom::scaledRange` (src/src/spl/spl_random.h:54-66),
with the 8-bit draw `nextU32(8)` made an explicit parameter `r8`:
`nx = FX_F32_TO_FX32(n)`, `range = (fx32)(variance * 255.0f)`,
`v = (nx * (255 - ((range * (fx32)r8) >> 8))) >> 8`, result
`FX_FX32_TO_F32(v)`. -/
def scaledRange (n variance : ℚ) (r8 : ℕ) : ℚ :=
  FX_FX32_TO_F32
    (asr (FX_F32_TO_FX32 n * (255 - asr (ratTrunc (variance * 255) * (r8 : ℤ)) 8)) 8)

/-- Accurate-mode `SPLRandom::scaledRange2` (src/src/spl/spl_random.h:69-81),
with the 8-bit draw explicit:
`v = (nx * (255 + range - ((range * (fx32)r8) >> 7))) >> 8`. -/
def scaledRange2 (n variance : ℚ) (r8 : ℕ) : ℚ :=
  FX_FX32_TO_F32
    (asr (FX_F32_TO_FX32 n
      * (255 + ratTrunc (variance * 255) - asr (ratTrunc (variance * 255) * (r8 : ℤ)) 7)) 8)

/-- Accurate-mode `SPLRandom::aroundZero` (src/src/spl/spl_random.h:87-96),
with the 9-bit draw `nextU32(9)` explicit; `rangeFX << 8` is `rangeFX * 256`:
`result = FX_FX32_TO_F32((rangeFX * (s32)r9 - (rangeFX << 8)) >> 8)`. -/
def aroundZero (range : ℚ) (r9 : ℕ) : ℚ :=
  FX_FX32_TO_F32
    (asr (FX_F32_TO_FX32 range * (r9 : ℤ) - FX_F32_TO_FX32 range * 256) 8)

theorem scaledRange_eq {nI rgI : ℤ} (n variance : ℚ) (r8 : ℕ)
    (hn : FX_F32_TO_FX32 n = nI) (hv : ratTrunc (variance * 255) = rgI) :
    scaledRange n variance r8
      = ((asr (nI * (255 - asr (rgI * (r8 : ℤ)) 8)) 8 : ℤ) : ℚ) / 4096 := by
  rw [scaledRange, hn, hv]; rfl

theorem scaledRange2_eq {nI rgI : ℤ} (n variance : ℚ) (r8 : ℕ)
    (hn : FX_F32_TO_FX32 n = nI) (hv : ratTrunc (variance * 255) = rgI) :
    scaledRange2 n variance r8
      = ((asr (nI * (255 + rgI - asr (rgI * (r8 : ℤ)) 7)) 8 : ℤ) : ℚ) / 4096 := by
  rw [scaledRange2, hn, hv]; rfl

theorem fx_one : FX_F32_TO_FX32 1 = 4096 := by
  rw [FX_F32_TO_FX32, show ((1 : ℚ) * 4096) = ((4096 : ℕ) : ℚ) by norm_num,
    ratTrunc_natCast]
  norm_num

theorem trunc_variance_zero : ratTrunc ((0 : ℚ) * 255) = 0 := by
  rw [show ((0 : ℚ) * 255) = ((0 : ℕ) : ℚ) by norm_num, ratTrunc_natCast]
  norm_num

theorem trunc_variance_one : ratTrunc ((1 : ℚ) * 255) = 255 := by
  rw [show ((1 : ℚ) * 255) = ((255 : ℕ) : ℚ) by norm_num, ratTrunc_natCast]
  norm_num

theorem scaledRange_one_zero : scaledRange 1 0 0 = 4080 / 4096 := by
  have h1 : asr ((0 : ℤ) * ((0 : ℕ) : ℤ)) 8 = 0 := by decide
  rw [scaledRange_eq 1 0 0 fx_one trunc_variance_zero, h1]
  have h2 : asr ((4096 : ℤ) * (255 - 0)) 8 = 4080 := by decide
  rw [h2]
  norm_num

theorem scaledRange2_one_one : scaledRange2 1 1 255 = 32 / 4096 := by
  have h1 : asr ((255 : ℤ) * ((255 : ℕ) : ℤ)) 7 = 508 := by decide
  rw [scaledRange2_eq 1 1 255 fx_one trunc_variance_one, h1]
  have h2 : asr ((4096 : ℤ) * (255 + 255 - 508)) 8 = 32 := by decide
  rw [h2]
  norm_num

end SPLRandom

section RandomClaims

open SPLRandom

/-- C1 (counterexample): at `n = 1`, `variance = 0`, draw `r8 = 0`, accurate
`scaledRange` returns `4080/4096 = 255/256`, which differs from the claimed
formula value `n · (255 − ⌊(⌊variance·255⌋ · r8)/256⌋) / 255 = 1 · 255/255 = 1`
and lies outside the claimed interval
`[n·(1 − variance/2), n·(1 + variance/2)] = [1, 1]`. -/
theorem C1_counterexample :
    SPLRandom.scaledRange 1 0 0 ≠ (1 : ℚ) * (255 - 0) / 255
    ∧ ¬ ((1 : ℚ) * (1 - 0 / 2) ≤ SPLRandom.scaledRange 1 0 0) := by
  rw [scaledRange_one_zero]
  norm_num

/-- C1 (amended): accurate-mode `scaledRange(n, variance)` computes, in
fixed point, `⌊(⌊n·4096⌋ · (255 − ⌊(⌊variance·255⌋ · r8)/256⌋)) / 256⌋ / 4096`
— the final divisor is `256` (a right shift by 8), not `255` — and for
`0 ≤ n`, `variance ∈ [0, 1]` and an 8-bit draw `r8 ≤ 255` its result lies in
`[0, n]` (not in the symmetric interval `[n(1 − variance/2), n(1 + variance/2)]`). -/
theorem C1_scaledRange_fixed_point (n variance : ℚ) (r8 : ℕ)
    (hn : 0 ≤ n) (hv0 : 0 ≤ variance) (hv1 : variance ≤ 1) (hr : r8 ≤ 255) :
    SPLRandom.scaledRange n variance r8
      = ((⌊((⌊n * 4096⌋ * (255 - ⌊((⌊variance * 255⌋ * (r8 : ℤ) : ℤ) : ℚ) / 256⌋) : ℤ) : ℚ) / 256⌋ : ℤ) : ℚ) / 4096
    ∧ 0 ≤ SPLRandom.scaledRange n variance r8
    ∧ SPLRandom.scaledRange n variance r8 ≤ n := by
  have hr8 : ((r8 : ℤ) : ℚ) ≤ 255 := by exact_mod_cast hr
  have hr80 : (0 : ℤ) ≤ (r8 : ℤ) := Int.natCast_nonneg r8
  rw [SPLRandom.scaledRange, FX_F32_TO_FX32, FX_FX32_TO_F32]
  set nx := ratTrunc (n * 4096) with hnxdef
  set rg := ratTrunc (variance * 255) with hrgdef
  have hnx0 : 0 ≤ nx := ratTrunc_nonneg (by positivity)
  have hnxle : (nx : ℚ) ≤ n * 4096 := ratTrunc_le (by positivity)
  have hrg0 : 0 ≤ rg := ratTrunc_nonneg (by positivity)
  have hrgle : (rg : ℚ) ≤ variance * 255 := ratTrunc_le (by positivity)
  have hrg255 : rg ≤ 255 := by
    have h : (rg : ℚ) ≤ 255 := hrgle.trans (by nlinarith)
    exact_mod_cast h
  set inner := asr (rg * (r8 : ℤ)) 8 with hindef
  have hin0 : 0 ≤ inner := asr_nonneg (mul_nonneg hrg0 hr80) 8
  have hin256 : inner ≤ 255 := by
    apply asr_le_of_le
    have h : rg * (r8 : ℤ) ≤ 255 * 255 :=
      mul_le_mul hrg255 (by exact_mod_cast hr) hr80 (by norm_num)
    nlinarith
  set v := asr (nx * (255 - inner)) 8 with hvdef
  have hv0' : 0 ≤ v := asr_nonneg (mul_nonneg hnx0 (by omega)) 8
  have hvle : v ≤ nx := by
    apply asr_le_of_le
    calc nx * (255 - inner) ≤ nx * 2 ^ 8 :=
          mul_le_mul_of_nonneg_left (by omega) hnx0
      _ = nx * 2 ^ 8 := rfl
  refine ⟨?_, ?_, ?_⟩
  · rw [hvdef, hindef, hnxdef, hrgdef,
      ratTrunc_eq_floor (by positivity : (0:ℚ) ≤ n * 4096),
      ratTrunc_eq_floor (by positivity : (0:ℚ) ≤ variance * 255),
      asr_eq_floor, asr_eq_floor]
    norm_num
  · positivity
  · rw [div_le_iff₀ (by norm_num : (0:ℚ) < 4096)]
    have hvq : (v : ℚ) ≤ (nx : ℚ) := by exact_mod_cast hvle
    linarith

/-- C1 (witness): the amended theorem instantiated at `n = 2`,
`variance = 1/2`, `r8 = 100`. -/
theorem C1_witness :
    (0 : ℚ) ≤ 2 ∧ (0 : ℚ) ≤ 1 / 2 ∧ (1 / 2 : ℚ) ≤ 1 ∧ 100 ≤ 255
    ∧ (SPLRandom.scaledRange 2 (1 / 2) 100
        = ((⌊((⌊(2 : ℚ) * 4096⌋ * (255 - ⌊((⌊(1 / 2 : ℚ) * 255⌋ * ((100 : ℕ) : ℤ) : ℤ) : ℚ) / 256⌋) : ℤ) : ℚ) / 256⌋ : ℤ) : ℚ) / 4096
      ∧ 0 ≤ SPLRandom.scaledRange 2 (1 / 2) 100
      ∧ SPLRandom.scaledRange 2 (1 / 2) 100 ≤ 2) :=
  ⟨by norm_num, by norm_num, by norm_num, by norm_num,
    C1_scaledRange_fixed_point 2 (1 / 2) 100 (by norm_num) (by norm_num)
      (by norm_num) (by norm_num)⟩

/-- C3 (counterexample): at `n = 1`, `variance = 1`, draw `r8 = 255`, accurate
`scaledRange2` returns `32/4096 = 1/128`, which lies far below the claimed
lower endpoint `n = 1` of the interval `[n, n·(1 + variance)] = [1, 2]`. -/
theorem C3_counterexample :
    ¬ ((1 : ℚ) ≤ SPLRandom.scaledRange2 1 1 255) := by
  rw [scaledRange2_one_one]
  norm_num

/-- C3 (amended): for `0 ≤ n`, `variance ∈ [0, 1]` and an 8-bit draw
`r8 ≤ 255`, accurate-mode `scaledRange2(n, variance)` returns a value in
`[0, n·(1 + variance)]`; the lower endpoint of the claimed interval
`[n, n·(1 + variance)]` does not hold (the `>> 7` in the draw term makes the
fixed-point factor range over roughly `[2, 510]` instead of `[255, 510]`). -/
theorem C3_scaledRange2_bounds (n variance : ℚ) (r8 : ℕ)
    (hn : 0 ≤ n) (hv0 : 0 ≤ variance) (hv1 : variance ≤ 1) (hr : r8 ≤ 255) :
    0 ≤ SPLRandom.scaledRange2 n variance r8
    ∧ SPLRandom.scaledRange2 n variance r8 ≤ n * (1 + variance) := by
  have hr80 : (0 : ℤ) ≤ (r8 : ℤ) := Int.natCast_nonneg r8
  rw [SPLRandom.scaledRange2, FX_F32_TO_FX32, FX_FX32_TO_F32]
  set nx := ratTrunc (n * 4096) with hnxdef
  set rg := ratTrunc (variance * 255) with hrgdef
  have hnx0 : 0 ≤ nx := ratTrunc_nonneg (by positivity)
  have hnxle : (nx : ℚ) ≤ n * 4096 := ratTrunc_le (by positivity)
  have hrg0 : 0 ≤ rg := ratTrunc_nonneg (by positivity)
  have hrgle : (rg : ℚ) ≤ variance * 255 := ratTrunc_le (by positivity)
  have hrg255 : rg ≤ 255 := by
    have h : (rg : ℚ) ≤ 255 := hrgle.trans (by nlinarith)
    exact_mod_cast h
  set sub := asr (rg * (r8 : ℤ)) 7 with hsubdef
  have hsub0 : 0 ≤ sub := asr_nonneg (mul_nonneg hrg0 hr80) 7
  have hsuble : sub ≤ 255 + rg := by
    apply asr_le_of_le
    have h : rg * (r8 : ℤ) ≤ rg * 255 :=
      mul_le_mul_of_nonneg_left (by exact_mod_cast hr) hrg0
    nlinarith
  set v := asr (nx * (255 + rg - sub)) 8 with hvdef
  have hv0' : 0 ≤ v := asr_nonneg (mul_nonneg hnx0 (by omega)) 8
  constructor
  · positivity
  · rw [div_le_iff₀ (by norm_num : (0:ℚ) < 4096)]
    have hA : (v : ℚ) ≤ ((nx * (255 + rg - sub) : ℤ) : ℚ) / 2 ^ 8 := asr_le _ 8
    have hB : ((nx * (255 + rg - sub) : ℤ) : ℚ) ≤ ((nx * (255 + rg) : ℤ) : ℚ) := by
      exact_mod_cast mul_le_mul_of_nonneg_left (by omega : 255 + rg - sub ≤ 255 + rg) hnx0
    have hnx0q : (0 : ℚ) ≤ (nx : ℚ) := by exact_mod_cast hnx0
    have hC : ((nx * (255 + rg) : ℤ) : ℚ) ≤ (nx : ℚ) * (255 + variance * 255) := by
      push_cast
      nlinarith
    have hD : (nx : ℚ) * (255 + variance * 255) ≤ n * 4096 * (255 + variance * 255) := by
      apply mul_le_mul_of_nonneg_right hnxle
      nlinarith
    nlinarith

/-- C3 (witness): the amended theorem instantiated at `n = 3`,
`variance = 1`, `r8 = 7`. -/
theorem C3_witness :
    (0 : ℚ) ≤ 3 ∧ (0 : ℚ) ≤ 1 ∧ (1 : ℚ) ≤ 1 ∧ 7 ≤ 255
    ∧ (0 ≤ SPLRandom.scaledRange2 3 1 7
      ∧ SPLRandom.scaledRange2 3 1 7 ≤ 3 * (1 + 1)) :=
  ⟨by norm_num, by norm_num, by norm_num, by norm_num,
    C3_scaledRange2_bounds 3 1 7 (by norm_num) (by norm_num) (by norm_num)
      (by norm_num)⟩

/-- C4: for `0 ≤ range` and a 9-bit draw `r9 ≤ 511`, accurate-mode
`aroundZero(range)` computes, in fixed point,
`⌊(rangeFX · r9 − rangeFX · 256) / 256⌋ / 4096` with `rangeFX = ⌊range·4096⌋`
(`rangeFX << 8` is `rangeFX · 256` and `>> 8` is flooring division by `256`),
and its result lies in `[-range, range]`. -/
theorem C4_aroundZero_bounds (range : ℚ) (r9 : ℕ)
    (h0 : 0 ≤ range) (h9 : r9 ≤ 511) :
    SPLRandom.aroundZero range r9
      = ((⌊((⌊range * 4096⌋ * (r9 : ℤ) - ⌊range * 4096⌋ * 256 : ℤ) : ℚ) / 256⌋ : ℤ) : ℚ) / 4096
    ∧ -range ≤ SPLRandom.aroundZero range r9
    ∧ SPLRandom.aroundZero range r9 ≤ range := by
  have hr90 : (0 : ℤ) ≤ (r9 : ℤ) := Int.natCast_nonneg r9
  have hr9 : (r9 : ℤ) ≤ 511 := by exact_mod_cast h9
  rw [SPLRandom.aroundZero, FX_F32_TO_FX32, FX_FX32_TO_F32]
  set rf := ratTrunc (range * 4096) with hrfdef
  have hrf0 : 0 ≤ rf := ratTrunc_nonneg (by positivity)
  have hrfle : (rf : ℚ) ≤ range * 4096 := ratTrunc_le (by positivity)
  set v := asr (rf * (r9 : ℤ) - rf * 256) 8 with hvdef
  have hvle : v ≤ rf := by
    apply asr_le_of_le
    have h : rf * (r9 : ℤ) ≤ rf * 511 := mul_le_mul_of_nonneg_left hr9 hrf0
    nlinarith
  have hvge : -rf ≤ v := by
    apply le_asr
    have h : (0 : ℚ) ≤ ((rf * (r9 : ℤ) : ℤ) : ℚ) := by
      exact_mod_cast mul_nonneg hrf0 hr90
    rw [le_div_iff₀ (by norm_num : (0:ℚ) < 2 ^ 8)]
    push_cast
    push_cast at h
    nlinarith
  refine ⟨?_, ?_, ?_⟩
  · rw [hvdef, hrfdef, ratTrunc_eq_floor (by positivity : (0:ℚ) ≤ range * 4096),
      asr_eq_floor]
    norm_num
  · rw [le_div_iff₀ (by norm_num : (0:ℚ) < 4096)]
    have hq : (-rf : ℚ) ≤ (v : ℚ) := by exact_mod_cast hvge
    have hq2 : (-(range * 4096) : ℚ) ≤ (-rf : ℚ) := by linarith
    linarith
  · rw [div_le_iff₀ (by norm_num : (0:ℚ) < 4096)]
    have hq : (v : ℚ) ≤ (rf : ℚ) := by exact_mod_cast hvle
    linarith

/-- C4 (witness): the theorem instantiated at `range = 1`, `r9 = 0` (where
the lower endpoint `-1` is attained exactly). -/
theorem C4_witness :
    (0 : ℚ) ≤ 1 ∧ 0 ≤ 511
    ∧ (SPLRandom.aroundZero 1 0
        = ((⌊((⌊(1 : ℚ) * 4096⌋ * ((0 : ℕ) : ℤ) - ⌊(1 : ℚ) * 4096⌋ * 256 : ℤ) : ℚ) / 256⌋ : ℤ) : ℚ) / 4096
      ∧ -1 ≤ SPLRandom.aroundZero 1 0 ∧ SPLRandom.aroundZero 1 0 ≤ 1) :=
  ⟨by norm_num, by norm_num,
    C4_aroundZero_bounds 1 0 (by norm_num) (by norm_num)⟩

end RandomClaims

namespace MT19937

/-- Modulus of 64-bit word arithmetic. -/
def M64 : ℕ := 2 ^ 64

/-- Seeding recurrence `mt[i] = f · (mt[i-1] xor (mt[i-1] >> 62)) + i` of the
64-bit Mersenne twister engine (instantiated as `std::mt19937_64 m_gen` in
src/src/spl/spl_random.h:130; the engine's algorithm is fixed by the C++
standard). -/
def seedStep (prev i : ℕ) : ℕ :=
  (6364136223846793003 * (prev ^^^ (prev >>> 62)) + i) % M64

/-- Words `mt[i], mt[i+1], ...` produced by iterating `seedStep`: `c` words
starting at index `i`, with `prev` the previously produced word. -/
def seedFrom : ℕ → ℕ → ℕ → List ℕ
  | 0, _, _ => []
  | c + 1, i, prev => seedStep prev i :: seedFrom c (i + 1) (seedStep prev i)

/-- Initial 312-word engine state obtained from a seed. -/
def init (seed : ℕ) : List ℕ := (seed % M64) :: seedFrom 311 1 (seed % M64)

/-- Low 31 bits. -/
def lowerMask : ℕ := 2 ^ 31 - 1

/-- High 33 bits of a 64-bit word. -/
def upperMask : ℕ := (2 ^ 64 - 1) - lowerMask

/-- One twist update at index `i`, reading the partially updated state, as
the sequential in-place loop of the reference algorithm does
(`n = 312`, `m = 156`, `r = 31`, `a = 0xB5026F5AA96619E9`). -/
def twistWord (mt : List ℕ) (i : ℕ) : ℕ :=
  let x := (mt.getD i 0 &&& upperMask) + (mt.getD ((i + 1) % 312) 0 &&& lowerMask)
  let xA := if x % 2 = 1 then (x >>> 1) ^^^ 0xB5026F5AA96619E9 else x >>> 1
  mt.getD ((i + 156) % 312) 0 ^^^ xA

/-- In-place update of one state word during the twist. -/
def twistStep (mt : List ℕ) (i : ℕ) : List ℕ := mt.set i (twistWord mt i)

/-- Full state twist (called every 312 draws). -/
def twist (mt : List ℕ) : List ℕ := (List.range 312).foldl twistStep mt

/-- Output tempering of the 64-bit engine
(`u = 29, d = 0x5555555555555555, s = 17, b = 0x71D67FFFEDA60000, t = 37,
c = 0xFFF7EEE000000000, l = 43`). -/
def temper (y : ℕ) : ℕ :=
  let y1 := y ^^^ ((y >>> 29) &&& 0x5555555555555555)
  let y2 := y1 ^^^ ((y1 <<< 17) &&& 0x71D67FFFEDA60000)
  let y3 := y2 ^^^ ((y2 <<< 37) &&& 0xFFF7EEE000000000)
  (y3 ^^^ (y3 >>> 43)) % M64

/-- Engine state: the 312 words and the index of the next word to output. -/
structure State where
  words : List ℕ
  idx : ℕ

/-- Freshly seeded engine (the first draw triggers a twist). -/
def mkState (seed : ℕ) : State := ⟨init seed, 312⟩

/-- One raw 64-bit draw of the engine. -/
def next64 (s : State) : ℕ × State :=
  if 312 ≤ s.idx then
    (temper ((twist s.words).getD 0 0), ⟨twist s.words, 1⟩)
  else
    (temper (s.words.getD s.idx 0), ⟨s.words, s.idx + 1⟩)

end MT19937

namespace SPLRandom

/-- Modelled draw of `SPLRandom::nextU32` (`m_dist32(m_gen)`,
src/src/spl/spl_random.h:18-20 and 118-120): one engine step reduced to
32 bits. The exact reduction computed by `std::uniform_int_distribution<u32>`
is implementation-defined; the model takes the low 32 bits of the 64-bit
output. The reproducibility property is independent of this choice: any
deterministic reduction of the deterministic engine output yields it. -/
def nextU32 (s : MT19937.State) : ℕ × MT19937.State :=
  ((MT19937.next64 s).1 % 2 ^ 32, (MT19937.next64 s).2)

/-- `SPLRandom::nextU32(int bits)` (src/src/spl/spl_random.h:30-32): the top
`bits` bits of a 32-bit draw, `nextU32() >> (32 - bits)`. -/
def nextU32Bits (bits : ℕ) (s : MT19937.State) : ℕ × MT19937.State :=
  ((nextU32 s).1 >>> (32 - bits), (nextU32 s).2)

/-- One accurate-mode call of the three damped-range operations. -/
inductive AccOp where
  | scaled (n variance : ℚ)
  | scaled2 (n variance : ℚ)
  | zero (range : ℚ)

/-- Semantics of one accurate-mode call on the RNG state: `scaledRange` and
`scaledRange2` consume `nextU32(8)`, `aroundZero` consumes `nextU32(9)`
(src/src/spl/spl_random.h:58,73,91). -/
def runOp : AccOp → MT19937.State → ℚ × MT19937.State
  | .scaled n variance, s =>
    (scaledRange n variance (nextU32Bits 8 s).1, (nextU32Bits 8 s).2)
  | .scaled2 n variance, s =>
    (scaledRange2 n variance (nextU32Bits 8 s).1, (nextU32Bits 8 s).2)
  | .zero range, s =>
    (aroundZero range (nextU32Bits 9 s).1, (nextU32Bits 9 s).2)

/-- Output sequence of a list of accurate-mode calls run from a state. -/
def runFrom (s : MT19937.State) : List AccOp → List ℚ
  | [] => []
  | op :: rest => (runOp op s).1 :: runFrom (runOp op s).2 rest

/-- Output sequence of a list of accurate-mode calls run from a seed. -/
def runAccurate (seed : ℕ) (ops : List AccOp) : List ℚ :=
  runFrom (MT19937.mkState seed) ops

end SPLRandom

/-- C2: for a fixed RNG seed, two runs of the accurate-mode functions
`scaledRange`, `scaledRange2` and `aroundZero` on the same inputs produce
identical (bit-for-bit) output sequences: the modelled mt19937_64 engine and
the accurate fixed-point path are deterministic functions of the seed and
of the call list alone. -/
theorem C2_fixed_seed_reproducible (seed : ℕ) (ops : List SPLRandom.AccOp)
    (xs ys : List ℚ)
    (h1 : xs = SPLRandom.runAccurate seed ops)
    (h2 : ys = SPLRandom.runAccurate seed ops) : xs = ys :=
  h1.trans h2.symm

/-- C2 (witness): two runs at seed `42` of a `scaledRange`, `scaledRange2`
and `aroundZero` call coincide. -/
theorem C2_witness :
    SPLRandom.runAccurate 42
        [SPLRandom.AccOp.scaled 1 1, SPLRandom.AccOp.scaled2 1 1,
          SPLRandom.AccOp.zero 1]
      = SPLRandom.runAccurate 42
          [SPLRandom.AccOp.scaled 1 1, SPLRandom.AccOp.scaled2 1 1,
            SPLRandom.AccOp.zero 1] :=
  C2_fixed_seed_reproducible 42
    [SPLRandom.AccOp.scaled 1 1, SPLRandom.AccOp.scaled2 1 1,
      SPLRandom.AccOp.zero 1] _ _ rfl rfl

namespace SPLArchive

/-- `SPLArchive::toAngle` (src/src/spl/spl_archive.h:66-69) computes
`f32(index) / 65535.0f * two_pi`. The model represents an angle by its
coefficient of `2π` ("turns"): `toAngle(i) = toAngleTurns(i) · 2π`, with the
`f32` quotient idealised as the exact rational `i / 65535`. -/
def toAngleTurns (i : ℕ) : ℚ := (i : ℚ) / 65535

/-- `SPLArchive::toIndex` (src/src/spl/spl_archive.h:71-74) computes
`static_cast<u16>(angle / two_pi) * (u16)0xFFFF`, given here the angle's
`2π`-coefficient `t` (so `angle / two_pi = t` exactly). The cast truncates
the quotient toward zero into a `u16` and the integer product is returned as
`u16`, i.e. reduced mod `2 ^ 16`. -/
def toIndex (t : ℚ) : ℕ := (ratTrunc t).toNat % 65536 * 65535 % 65536

end SPLArchive

/-- C5 (counterexample): at index `i = 65535` the decoded angle is exactly
`2π` — the quotient `65535 / 65535` is exactly `1` — so `toAngle(65535)` is
not strictly less than `2π`. -/
theorem C5_counterexample :
    ((SPLArchive.toAngleTurns 65535 : ℚ) : ℝ) * (2 * Real.pi) = 2 * Real.pi
    ∧ ¬ (((SPLArchive.toAngleTurns 65535 : ℚ) : ℝ) * (2 * Real.pi)
          < 2 * Real.pi) := by
  have h : SPLArchive.toAngleTurns 65535 = 1 := by
    rw [SPLArchive.toAngleTurns]; norm_num
  rw [h]
  norm_num

/-- C5 (amended): `toAngle` is linear in the 16-bit index `i` — it equals
`i · (2π / 65535)` — and maps `0 ≤ i ≤ 65535` into the closed interval
`[0, 2π]`; it is strictly below `2π` exactly for `i ≤ 65534`, while
`toAngle(65535) = 2π`. -/
theorem C5_toAngle_linear (i : ℕ) (hi : i ≤ 65535) :
    ((SPLArchive.toAngleTurns i : ℚ) : ℝ) * (2 * Real.pi)
        = (i : ℝ) * (2 * Real.pi / 65535)
    ∧ 0 ≤ ((SPLArchive.toAngleTurns i : ℚ) : ℝ) * (2 * Real.pi)
    ∧ ((SPLArchive.toAngleTurns i : ℚ) : ℝ) * (2 * Real.pi) ≤ 2 * Real.pi
    ∧ (i ≤ 65534 →
        ((SPLArchive.toAngleTurns i : ℚ) : ℝ) * (2 * Real.pi) < 2 * Real.pi) := by
  have hpi : (0 : ℝ) < 2 * Real.pi := by positivity
  have hts : ((SPLArchive.toAngleTurns i : ℚ) : ℝ) = (i : ℝ) / 65535 := by
    rw [SPLArchive.toAngleTurns]
    push_cast
    ring
  refine ⟨?_, ?_, ?_, ?_⟩
  · rw [hts]; ring
  · rw [hts]; positivity
  · rw [hts]
    have h1 : (i : ℝ) / 65535 ≤ 1 := by
      rw [div_le_one (by norm_num)]
      exact_mod_cast hi
    nlinarith
  · intro h65534
    rw [hts]
    have h1 : (i : ℝ) / 65535 < 1 := by
      rw [div_lt_one (by norm_num)]
      exact_mod_cast Nat.lt_of_le_of_lt h65534 (by norm_num)
    nlinarith

/-- C5 (witness): the amended theorem instantiated at `i = 100`. -/
theorem C5_witness :
    100 ≤ 65535
    ∧ (((SPLArchive.toAngleTurns 100 : ℚ) : ℝ) * (2 * Real.pi)
          = (100 : ℝ) * (2 * Real.pi / 65535)
      ∧ 0 ≤ ((SPLArchive.toAngleTurns 100 : ℚ) : ℝ) * (2 * Real.pi)
      ∧ ((SPLArchive.toAngleTurns 100 : ℚ) : ℝ) * (2 * Real.pi) ≤ 2 * Real.pi
      ∧ (100 ≤ 65534 →
          ((SPLArchive.toAngleTurns 100 : ℚ) : ℝ) * (2 * Real.pi)
            < 2 * Real.pi)) :=
  ⟨by norm_num, C5_toAngle_linear 100 (by norm_num)⟩

/-- C10: for every angle in `[0, 2π)` — given by its `2π`-coefficient
`t ∈ [0, 1)` — `toIndex` truncates the quotient `angle / 2π` to the integer
`0` before scaling by `0xFFFF`, hence returns `0`; consequently the round
trip `toIndex(toAngle(i))` returns `0 ≠ i` for every `1 ≤ i ≤ 65534`. -/
theorem C10_toIndex_round_trip (t : ℚ) (i : ℕ)
    (ht0 : 0 ≤ t) (ht1 : t < 1) (hi1 : 1 ≤ i) (hi2 : i ≤ 65534) :
    SPLArchive.toIndex t = 0
    ∧ SPLArchive.toIndex (SPLArchive.toAngleTurns i) = 0
    ∧ SPLArchive.toIndex (SPLArchive.toAngleTurns i) ≠ i := by
  have key : ∀ s : ℚ, 0 ≤ s → s < 1 → SPLArchive.toIndex s = 0 := by
    intro s h0 h1
    rw [SPLArchive.toIndex, ratTrunc_eq_floor h0,
      Int.floor_eq_zero_iff.mpr ⟨h0, h1⟩]
    rfl
  have hturns0 : 0 ≤ SPLArchive.toAngleTurns i := by
    rw [SPLArchive.toAngleTurns]; positivity
  have hturns1 : SPLArchive.toAngleTurns i < 1 := by
    rw [SPLArchive.toAngleTurns, div_lt_one (by norm_num)]
    exact_mod_cast Nat.lt_of_le_of_lt hi2 (by norm_num)
  refine ⟨key t ht0 ht1, key _ hturns0 hturns1, ?_⟩
  rw [key _ hturns0 hturns1]
  omega

/-- C10 (witness): the theorem instantiated at `t = 1/2` (the angle `π`)
and `i = 7`. -/
theorem C10_witness :
    (0 : ℚ) ≤ 1 / 2 ∧ (1 / 2 : ℚ) < 1 ∧ 1 ≤ 7 ∧ 7 ≤ 65534
    ∧ (SPLArchive.toIndex (1 / 2) = 0
      ∧ SPLArchive.toIndex (SPLArchive.toAngleTurns 7) = 0
      ∧ SPLArchive.toIndex (SPLArchive.toAngleTurns 7) ≠ 7) :=
  ⟨by norm_num, by norm_num, by norm_num, by norm_num,
    C10_toIndex_round_trip (1 / 2) 7 (by norm_num) (by norm_num) (by norm_num)
      (by norm_num)⟩

/-- Behavior kinds of a resource (the six `SPLBehavior` subclasses declared
in src/src/spl/spl_archive.h:47-52 and flagged in
src/src/spl/spl_resource.h:98-103). -/
inductive SPLBehaviorKind where
  | gravity
  | random
  | magnet
  | spin
  | collisionPlane
  | convergence
deriving DecidableEq

/-- The six behavior-presence booleans of `SPLResourceFlags`
(src/src/spl/spl_resource.h:131-136). -/
structure BehaviorFlags where
  hasGravityBehavior : Bool
  hasRandomBehavior : Bool
  hasMagnetBehavior : Bool
  hasSpinBehavior : Bool
  hasCollisionPlaneBehavior : Bool
  hasConvergenceBehavior : Bool

/-- Modelled from the spec: the decoding loop that fills
`SPLResource::behaviors` lives in `spl_archive.cpp`, which is not among the
given sources; §4.3 step 3 of the spec reads one behavior record per set flag
in a fixed canonical per-kind order (the flag-bit order of
`SPLResourceFlagsNative`, src/src/spl/spl_resource.h:98-103). -/
def decodeBehaviors (f : BehaviorFlags) : List SPLBehaviorKind :=
  (if f.hasGravityBehavior then [SPLBehaviorKind.gravity] else [])
    ++ (if f.hasRandomBehavior then [SPLBehaviorKind.random] else [])
    ++ (if f.hasMagnetBehavior then [SPLBehaviorKind.magnet] else [])
    ++ (if f.hasSpinBehavior then [SPLBehaviorKind.spin] else [])
    ++ (if f.hasCollisionPlaneBehavior then [SPLBehaviorKind.collisionPlane] else [])
    ++ (if f.hasConvergenceBehavior then [SPLBehaviorKind.convergence] else [])

/-- C6: for every decoded resource, the behavior list contains no duplicate
kinds and contains each kind exactly when the corresponding presence flag of
`SPLResourceFlags` is set. -/
theorem C6_behavior_flags_lockstep (f : BehaviorFlags) :
    (decodeBehaviors f).Nodup
    ∧ (SPLBehaviorKind.gravity ∈ decodeBehaviors f ↔ f.hasGravityBehavior)
    ∧ (SPLBehaviorKind.random ∈ decodeBehaviors f ↔ f.hasRandomBehavior)
    ∧ (SPLBehaviorKind.magnet ∈ decodeBehaviors f ↔ f.hasMagnetBehavior)
    ∧ (SPLBehaviorKind.spin ∈ decodeBehaviors f ↔ f.hasSpinBehavior)
    ∧ (SPLBehaviorKind.collisionPlane ∈ decodeBehaviors f
        ↔ f.hasCollisionPlaneBehavior)
    ∧ (SPLBehaviorKind.convergence ∈ decodeBehaviors f
        ↔ f.hasConvergenceBehavior) := by
  obtain ⟨a, b, c, d, e, g⟩ := f
  cases a <;> cases b <;> cases c <;> cases d <;> cases e <;> cases g <;> decide

/-- Native `SPLTexAnimNative` record (src/src/spl/spl_resource.h:420-429):
an 8-entry texture array and the packed parameters, `frameCount` being an
8-bit bit-field. -/
structure SPLTexAnimNative where
  textures : List ℕ
  frameCount : ℕ
  step : ℕ
  randomizeInit : Bool
  loop : Bool

/-- Decoded `SPLTexAnim` (src/src/spl/spl_resource.h:431-449). -/
structure SPLTexAnim where
  textures : List ℕ
  textureCount : ℕ
  step : ℚ
  randomizeInit : Bool
  loop : Bool

/-- The decoding constructor `SPLTexAnim(const SPLTexAnimNative&)`
(src/src/spl/spl_resource.h:440-446): copies the 8 array entries, copies
`frameCount` (an 8-bit field, hence reduced mod 256) into `textureCount`
without clamping, and scales `step` by `1/255`. -/
def SPLTexAnim.fromNative (n : SPLTexAnimNative) : SPLTexAnim where
  textures := n.textures.take 8
  textureCount := n.frameCount % 256
  step := ((n.step % 256 : ℕ) : ℚ) / 255
  randomizeInit := n.randomizeInit
  loop := n.loop

/-- Modelled from the spec: `SPLTexAnim::apply` is implemented outside the
given sources; §4.5 of the spec steps through up to 8 texture-frame indices
at a fixed fraction-of-life `step`, optionally randomizing the initial frame
and looping. `k` abstracts the number of elapsed steps
(initial random offset included); a looping animation wraps around the
frame count, a non-looping one clamps at the last frame, and the count is
capped at the 8 entries of the frame array. -/
def texFrameSlot (anim : SPLTexAnim) (k : ℕ) : ℕ :=
  if min anim.textureCount 8 = 0 then 0
  else if anim.loop then k % min anim.textureCount 8
  else min k (min anim.textureCount 8 - 1)

/-- C8: for every native record — in particular for every value of the
native 8-bit `frameCount` field — and every elapsed step count, the decoded
animation holds at most 8 frames and the frame slot accessed stays within
the bounds of the 8-entry frame array. -/
theorem C8_texanim_in_bounds (native : SPLTexAnimNative) (k : ℕ) :
    (SPLTexAnim.fromNative native).textures.length ≤ 8
    ∧ min (SPLTexAnim.fromNative native).textureCount 8 ≤ 8
    ∧ texFrameSlot (SPLTexAnim.fromNative native) k < 8 := by
  have hc8 : min (SPLTexAnim.fromNative native).textureCount 8 ≤ 8 :=
    min_le_right _ _
  refine ⟨List.length_take_le 8 native.textures, hc8, ?_⟩
  rw [texFrameSlot]
  split_ifs with h0 hl
  · norm_num
  · exact Nat.lt_of_lt_of_le (Nat.mod_lt _ (Nat.pos_of_ne_zero h0)) hc8
  · have h := min_le_right k (min (SPLTexAnim.fromNative native).textureCount 8 - 1)
    omega

/-- Decode errors. Modelled from the spec: §7's taxonomy makes every decode
failure an `InvalidFormat`-class error carrying a description (the
`UnsupportedTextureFormat` condition of §7 is a non-fatal downstream warning
and the out-of-range access of C9 never reaches the decoder). -/
inductive SPLError where
  | invalidFormat (msg : String)

/-- `SPLFileHeader` (src/src/spl/spl_resource.h:17-27). -/
structure SPLFileHeader where
  magic : ℕ
  version : ℕ
  resCount : ℕ
  texCount : ℕ
  reserved0 : ℕ
  resSize : ℕ
  texSize : ℕ
  texOffset : ℕ
  reserved1 : ℕ

/-- Modelled from the spec: the magic and version constants checked by
`SPLArchive::load` live in `spl_archive.cpp`, which is not among the given
sources; the concrete values are irrelevant to the all-or-nothing property,
the tag is the little-endian ASCII word `" APS"` of the `.spa` format. -/
def SPA_MAGIC : ℕ := 0x53504120

/-- Modelled from the spec: the expected format version. -/
def SPA_VERSION : ℕ := 1

/-- Read one byte of the input. -/
def readU8 : List ℕ → Except SPLError (ℕ × List ℕ)
  | b0 :: rest => .ok (b0, rest)
  | _ => .error (.invalidFormat "truncated stream reading u8")

/-- Read a little-endian `u16`. -/
def readU16 : List ℕ → Except SPLError (ℕ × List ℕ)
  | b0 :: b1 :: rest => .ok (b0 + 256 * b1, rest)
  | _ => .error (.invalidFormat "truncated stream reading u16")

/-- Read a little-endian `u32`. -/
def readU32 : List ℕ → Except SPLError (ℕ × List ℕ)
  | b0 :: b1 :: b2 :: b3 :: rest =>
    .ok (b0 + 256 * b1 + 65536 * b2 + 16777216 * b3, rest)
  | _ => .error (.invalidFormat "truncated stream reading u32")

/-- Read a block of `n` raw bytes. -/
def readBytes (n : ℕ) (bs : List ℕ) : Except SPLError (List ℕ × List ℕ) :=
  if n ≤ bs.length then .ok (bs.take n, bs.drop n)
  else .error (.invalidFormat "truncated stream reading record")

/-- Skip a record of `n` bytes when its presence flag is set. -/
def readIf (cond : Bool) (n : ℕ) (bs : List ℕ) : Except SPLError (List ℕ) :=
  if cond then (readBytes n bs).map (fun p => p.2) else .ok bs

/-- The behavior-presence bits 24-29 of the packed
`SPLResourceFlagsNative` word (src/src/spl/spl_resource.h:74-107). -/
def behaviorFlagsOfWord (w : ℕ) : BehaviorFlags where
  hasGravityBehavior := w.testBit 24
  hasRandomBehavior := w.testBit 25
  hasMagnetBehavior := w.testBit 26
  hasSpinBehavior := w.testBit 27
  hasCollisionPlaneBehavior := w.testBit 28
  hasConvergenceBehavior := w.testBit 29

/-- Modelled from the spec: the native behavior record layouts live in
`spl_behavior.h`, which is not among the given sources; each kind has a small
fixed-size parameter record (§3); the concrete sizes are nominal and do not
affect the all-or-nothing property. -/
def behaviorRecordSize : SPLBehaviorKind → ℕ
  | .gravity => 8
  | .random => 8
  | .magnet => 16
  | .spin => 4
  | .collisionPlane => 12
  | .convergence => 16

/-- Byte size of `SPLResourceHeaderNative` minus its leading flag word:
the packed struct of src/src/spl/spl_resource.h:201-252 occupies 88 bytes
(flags 4, emitterBasePos 12, emissionCount/radius/length 12, axis 6, color 2,
amplifiers/baseScale 12, aspectRatio through particleLifeTime 16,
randomAttenuation 4, misc 12, polygonX/Y 4, userData 4). -/
def resourceHeaderTailSize : ℕ := 84

/-- Decoded resource skeleton: the unpacked flag word, the optional-record
presence bits and the behavior kinds, i.e. the structure of `SPLResource`
(src/src/spl/spl_resource.h:557-567) that the decode claims constrain. -/
structure SPLResource where
  flags : ℕ
  emissionType : ℕ
  hasScaleAnim : Bool
  hasColorAnim : Bool
  hasAlphaAnim : Bool
  hasTexAnim : Bool
  hasChildResource : Bool
  behaviors : List SPLBehaviorKind

/-- Modelled from the spec: one resource record per §4.3 steps 2-3 and §6
(`spl_archive.cpp` is not among the given sources) — the fixed-size native
header with its flag word validated against the `SPLEmissionType` enum
(src/src/spl/spl_resource.h:29-40, values 0-9), then the optional
ScaleAnim/ColorAnim/AlphaAnim/TexAnim/ChildResource records (native sizes
12/12/8/12/20, src/src/spl/spl_resource.h:310-471) and the behavior records,
all in canonical order, each present exactly when its flag bit is set. -/
def parseResource (bs : List ℕ) : Except SPLError (SPLResource × List ℕ) := do
  let (w, bs) ← readU32 bs
  if 10 ≤ w % 16 then
    throw (SPLError.invalidFormat "invalid emission type")
  else
    let (_, bs) ← readBytes resourceHeaderTailSize bs
    let bs ← readIf (w.testBit 8) 12 bs
    let bs ← readIf (w.testBit 9) 12 bs
    let bs ← readIf (w.testBit 10) 8 bs
    let bs ← readIf (w.testBit 11) 12 bs
    let bs ← readIf (w.testBit 16) 20 bs
    let bs ← readIf (w.testBit 24) (behaviorRecordSize .gravity) bs
    let bs ← readIf (w.testBit 25) (behaviorRecordSize .random) bs
    let bs ← readIf (w.testBit 26) (behaviorRecordSize .magnet) bs
    let bs ← readIf (w.testBit 27) (behaviorRecordSize .spin) bs
    let bs ← readIf (w.testBit 28) (behaviorRecordSize .collisionPlane) bs
    let bs ← readIf (w.testBit 29) (behaviorRecordSize .convergence) bs
    pure (⟨w, w % 16, w.testBit 8, w.testBit 9, w.testBit 10, w.testBit 11,
      w.testBit 16, decodeBehaviors (behaviorFlagsOfWord w)⟩, bs)

/-- The declared number of resource records, parsed in sequence. -/
def parseResources : ℕ → List ℕ → Except SPLError (List SPLResource × List ℕ)
  | 0, bs => .ok ([], bs)
  | n + 1, bs =>
    match parseResource bs with
    | .error e => .error e
    | .ok (r, rest) =>
      match parseResources n rest with
      | .error e => .error e
      | .ok (rs, rest2) => .ok (r :: rs, rest2)

/-- Decoded texture record, the fields of `SPLTextureResource`
(src/src/spl/spl_resource.h:523-532) plus the raw texel and palette spans. -/
structure SPLTexture where
  id : ℕ
  param : ℕ
  textureSize : ℕ
  paletteOffset : ℕ
  paletteSize : ℕ
  resourceSize : ℕ
  textureData : List ℕ
  paletteData : List ℕ

/-- Modelled from the spec: one texture record per §4.3 step 4 and §6 — the
eight header words of `SPLTextureResource`, the packed parameter word's
4-bit format validated against the 8-value `TextureFormat` enum
(src/src/spl/enum_names.h:81-89), the declared total size checked against
the data sizes, then the raw texel and palette bytes. -/
def parseTexture (bs : List ℕ) : Except SPLError (SPLTexture × List ℕ) := do
  let (tid, bs) ← readU32 bs
  let (param, bs) ← readU32 bs
  let (texSize, bs) ← readU32 bs
  let (palOff, bs) ← readU32 bs
  let (palSize, bs) ← readU32 bs
  let (_, bs) ← readU32 bs
  let (_, bs) ← readU32 bs
  let (resSize, bs) ← readU32 bs
  if 8 ≤ param % 16 then
    throw (SPLError.invalidFormat "invalid texture format")
  else if resSize ≠ 32 + texSize + palSize then
    throw (SPLError.invalidFormat "texture size mismatch")
  else
    let (texData, bs) ← readBytes texSize bs
    let (palData, bs) ← readBytes palSize bs
    pure (⟨tid, param, texSize, palOff, palSize, resSize, texData, palData⟩, bs)

/-- The declared number of texture records, parsed in sequence. -/
def parseTextures : ℕ → List ℕ → Except SPLError (List SPLTexture × List ℕ)
  | 0, bs => .ok ([], bs)
  | n + 1, bs =>
    match parseTexture bs with
    | .error e => .error e
    | .ok (t, rest) =>
      match parseTextures n rest with
      | .error e => .error e
      | .ok (ts, rest2) => .ok (t :: ts, rest2)

/-- The raw file header fields in the §6 layout. -/
def parseFileHeaderRaw (bs : List ℕ) : Except SPLError (SPLFileHeader × List ℕ) := do
  let (magic, bs) ← readU32 bs
  let (version, bs) ← readU32 bs
  let (resCount, bs) ← readU16 bs
  let (texCount, bs) ← readU16 bs
  let (reserved0, bs) ← readU32 bs
  let (resSize, bs) ← readU32 bs
  let (texSize, bs) ← readU32 bs
  let (texOffset, bs) ← readU32 bs
  let (reserved1, bs) ← readU32 bs
  pure (⟨magic, version, resCount, texCount, reserved0, resSize, texSize,
    texOffset, reserved1⟩, bs)

/-- Modelled from the spec: §4.3 step 1, the header is read and its magic and
version validated, rejecting mismatches with `InvalidFormat`. -/
def parseFileHeader (bs : List ℕ) : Except SPLError (SPLFileHeader × List ℕ) :=
  match parseFileHeaderRaw bs with
  | .error e => .error e
  | .ok (h, rest) =>
    if h.magic = SPA_MAGIC then
      if h.version = SPA_VERSION then .ok (h, rest)
      else .error (.invalidFormat "invalid version")
    else .error (.invalidFormat "invalid magic")

/-- Modelled from the spec: `SPLArchive::load` (declared at
src/src/spl/spl_archive.h:37, implemented in the absent `spl_archive.cpp`)
per §4.3 — header, then all declared resources, then all declared textures;
any failure aborts the whole decode. -/
def load (bs : List ℕ) : Except SPLError (List SPLResource × List SPLTexture) :=
  match parseFileHeader bs with
  | .error e => .error e
  | .ok (h, rest) =>
    match parseResources h.resCount rest with
    | .error e => .error e
    | .ok (rs, rest2) =>
      match parseTextures h.texCount rest2 with
      | .error e => .error e
      | .ok (ts, _) => .ok (rs, ts)

theorem parseResources_length :
    ∀ (n : ℕ) (bs : List ℕ) (rs : List SPLResource) (rest : List ℕ),
      parseResources n bs = .ok (rs, rest) → rs.length = n := by
  intro n
  induction n with
  | zero =>
    intro bs rs rest h
    rw [parseResources] at h
    cases h
    rfl
  | succ n ih =>
    intro bs rs rest h
    rw [parseResources] at h
    split at h
    · cases h
    · split at h
      · cases h
      · rename_i rs2 rest2 h2
        cases h
        simp [ih _ _ _ h2]

theorem parseTextures_length :
    ∀ (n : ℕ) (bs : List ℕ) (ts : List SPLTexture) (rest : List ℕ),
      parseTextures n bs = .ok (ts, rest) → ts.length = n := by
  intro n
  induction n with
  | zero =>
    intro bs ts rest h
    rw [parseTextures] at h
    cases h
    rfl
  | succ n ih =>
    intro bs ts rest h
    rw [parseTextures] at h
    split at h
    · cases h
    · split at h
      · cases h
      · rename_i ts2 rest2 h2
        cases h
        simp [ih _ _ _ h2]

theorem parseFileHeader_ok {bs : List ℕ} {h : SPLFileHeader} {rest : List ℕ}
    (hok : parseFileHeader bs = .ok (h, rest)) :
    h.magic = SPA_MAGIC ∧ h.version = SPA_VERSION := by
  rw [parseFileHeader] at hok
  split at hok
  · cases hok
  · split at hok
    · split at hok
      · cases hok
        constructor <;> assumption
      · cases hok
    · cases hok

/-- C7: archive decoding is all-or-nothing: for every input byte sequence,
either the decode succeeds with the full ordered resource and texture lists
(their lengths are the header's declared counts, and the header carries the
validated magic and version), or it fails with an `InvalidFormat`-class
error, exposing no partially decoded resource or texture. -/
theorem C7_load_all_or_nothing (bs : List ℕ) :
    (∃ h rest res,
        parseFileHeader bs = .ok (h, rest)
        ∧ h.magic = SPA_MAGIC ∧ h.version = SPA_VERSION
        ∧ load bs = .ok res
        ∧ res.1.length = h.resCount ∧ res.2.length = h.texCount)
    ∨ (∃ msg, load bs = .error (SPLError.invalidFormat msg)) := by
  cases hh : parseFileHeader bs with
  | error e =>
    right
    cases e with
    | invalidFormat msg => exact ⟨msg, by simp [load, hh]⟩
  | ok p =>
    obtain ⟨h, rest⟩ := p
    obtain ⟨hm, hv⟩ := parseFileHeader_ok hh
    cases hr : parseResources h.resCount rest with
    | error e =>
      right
      cases e with
      | invalidFormat msg => exact ⟨msg, by simp [load, hh, hr]⟩
    | ok q =>
      obtain ⟨rs, rest2⟩ := q
      cases ht : parseTextures h.texCount rest2 with
      | error e =>
        right
        cases e with
        | invalidFormat msg => exact ⟨msg, by simp [load, hh, hr, ht]⟩
      | ok w =>
        obtain ⟨ts, rest3⟩ := w
        left
        exact ⟨h, rest, (rs, ts), rfl, hm, hv, by simp [load, hh, hr, ht],
          parseResources_length _ _ _ _ hr, parseTextures_length _ _ _ _ ht⟩


end Nitroefx
